import Mathlib

/-!
# Verification of the RMD160 constraint-system core (`src/circuits/rmd160.rs`)

This file shallowly embeds the RIPEMD-160 arithmetization chip:

* the pure witness generator `get_witnesses`, over `Nat` with explicit
  `% 2^32` wherever the Rust code uses wrapping 32-bit arithmetic;
* the gate layouts `RoundGate` / `CompressGate` and the five polynomial
  gates created by `RMD160Chip::configure`, evaluated over the bn256
  scalar field `F` (modelled as `ZMod rmdP`);
* the trace builder `assign_next` / `assign_compress` / `assign_content`
  (value semantics of the assigned cells, with the row cursor threaded
  explicitly), plus the ordered list of advice-cell writes that
  `assign_compress` performs;
* the constant tables and the round mixing function, which live in the
  crate's `host` / `utils` modules (outside the visible core) and are
  therefore modelled from the spec: RIPEMD-160's standard tables.

Fallible places of the Rust code (checked arithmetic that panics in
witness generation when a shift amount is out of range) are modelled
with `Option`.
-/

namespace RMD160

/-- `2^32 - 1`, the all-ones 32-bit mask; `!x` on a `u32` is `x ^^^ mask32`. -/
def mask32 : Nat := 2 ^ 32 - 1

/-- `u32::wrapping_add`: 32-bit modular addition. -/
def wadd (x y : Nat) : Nat := (x + y) % 2 ^ 32

/-- `u32::rotate_left`: cyclic left rotation of a 32-bit word.  The shift is
taken mod 32 (as Rust does); the result is the bitwise or of the shifted-out
high part and the shifted low part, reduced to 32 bits. -/
def rotl32 (w s : Nat) : Nat :=
  ((w <<< (s % 32)) ||| (w >>> (32 - s % 32))) % 2 ^ 32

/-- Modelled from the spec: the round-dependent boolean mixing function
`RMD160Atomic::atomic` of `crate::host::rmd160` (not part of the visible
core).  Per RIPEMD-160's specification these are the five selection
functions f1..f5, indexed `0..4`. -/
def atomic (j x y z : Nat) : Nat :=
  match j with
  | 0 => x ^^^ y ^^^ z
  | 1 => (x &&& y) ||| ((x ^^^ mask32) &&& z)
  | 2 => (x ||| (y ^^^ mask32)) ^^^ z
  | 3 => (x &&& z) ||| (y &&& (z ^^^ mask32))
  | _ => x ^^^ (y ||| (z ^^^ mask32))

/-- All witness values the round gate needs (struct `RoundWitness`).
Field values (`wb`, `w2b`) are exact integer sums: they are below `2^34`,
far below the field modulus, so `Nat` represents them faithfully. -/
structure RoundWitness where
  r : Nat
  w0 : Nat
  wb : Nat
  wc : Nat
  w1 : Nat
  w1_h : Nat
  w1_l : Nat
  a_next : Nat
  w2b : Nat
  w2c : Nat
  w4_h : Nat
  w4_l : Nat
  c_next : Nat
  deriving Repr, DecidableEq

/-- `get_witnesses`: the pure witness computation for one round step.
For `shift = 0` the Rust code panics (`2u32.pow(32)` overflows and the
subsequent `w0 % 0` is a division by zero; `w0 >> 32` is a shift
overflow), and for `shift > 32` the expression `32 - shift` underflows;
these failures are modelled as `none`. -/
def get_witnesses (round : Nat) (rol : Fin 5 → Nat) (x shift offset : Nat)
    (pround : Bool) : Option RoundWitness :=
  if 1 ≤ shift ∧ shift ≤ 32 then
    let f := if pround then 5 - round - 1 else round
    let r := atomic f (rol 1) (rol 2) (rol 3)
    let w0 := wadd (wadd (wadd r (rol 0)) x) offset
    let wb := r + rol 0 + x + offset
    let wc := (wb - w0) >>> 32
    let w1 := rotl32 w0 shift
    let w1_h := w0 >>> (32 - shift)
    let w1_l := w0 % 2 ^ (32 - shift)
    let a_next := wadd w1 (rol 4)
    let w2b := w1 + rol 4
    let w2c := (w2b - a_next) >>> 32
    let w4_h := rol 2 >>> 22
    let w4_l := rol 2 % 2 ^ 22
    let c_next := rotl32 (rol 2) 10
    some ⟨r, w0, wb, wc, w1, w1_h, w1_l, a_next, w2b, w2c, w4_h, w4_l, c_next⟩
  else none

/-- Modelled from the spec: left-line message-index permutation `O` of
`crate::host::rmd160` (supplied, not computed, by the core): RIPEMD-160's
standard left-line message schedule, 5 groups of 16 entries. -/
def O : Fin 5 → Fin 16 → Fin 16 :=
  ![![0, 1, 2, 3, 4, 5, 6, 7, 8, 9, 10, 11, 12, 13, 14, 15],
    ![7, 4, 13, 1, 10, 6, 15, 3, 12, 0, 9, 5, 2, 14, 11, 8],
    ![3, 10, 14, 4, 9, 15, 8, 1, 2, 7, 0, 6, 13, 11, 5, 12],
    ![1, 9, 11, 10, 0, 8, 12, 4, 13, 3, 7, 15, 14, 5, 6, 2],
    ![4, 0, 5, 9, 7, 12, 2, 10, 14, 1, 3, 8, 11, 6, 15, 13]]

/-- Modelled from the spec: right-line message-index permutation `PO`:
RIPEMD-160's standard right-line message schedule. -/
def PO : Fin 5 → Fin 16 → Fin 16 :=
  ![![5, 14, 7, 0, 9, 2, 11, 4, 13, 6, 15, 8, 1, 10, 3, 12],
    ![6, 11, 3, 7, 0, 13, 5, 10, 14, 15, 8, 12, 4, 9, 1, 2],
    ![15, 5, 1, 3, 7, 14, 6, 9, 11, 8, 12, 2, 10, 0, 4, 13],
    ![8, 6, 4, 1, 3, 11, 15, 0, 5, 12, 2, 13, 9, 7, 10, 14],
    ![12, 15, 10, 4, 1, 5, 8, 7, 6, 2, 13, 14, 0, 3, 9, 11]]

/-- Modelled from the spec: left-line shift table `R` (RIPEMD-160 standard). -/
def R : Fin 5 → Fin 16 → Nat :=
  ![![11, 14, 15, 12, 5, 8, 7, 9, 11, 13, 14, 15, 6, 7, 9, 8],
    ![7, 6, 8, 13, 11, 9, 7, 15, 7, 12, 15, 9, 11, 7, 13, 12],
    ![11, 13, 6, 7, 14, 9, 13, 15, 14, 8, 13, 6, 5, 12, 7, 5],
    ![11, 12, 14, 15, 14, 15, 9, 8, 9, 14, 5, 6, 8, 6, 5, 12],
    ![9, 15, 5, 11, 6, 8, 13, 12, 5, 12, 13, 14, 11, 8, 5, 6]]

/-- Modelled from the spec: right-line shift table `PR` (RIPEMD-160 standard). -/
def PR : Fin 5 → Fin 16 → Nat :=
  ![![8, 9, 9, 11, 13, 15, 15, 5, 7, 7, 8, 11, 14, 14, 12, 6],
    ![9, 13, 15, 7, 12, 8, 9, 11, 7, 7, 12, 7, 6, 15, 13, 11],
    ![9, 7, 15, 11, 8, 6, 6, 14, 12, 13, 5, 14, 13, 13, 7, 5],
    ![15, 5, 8, 11, 14, 14, 6, 14, 6, 9, 12, 9, 12, 5, 15, 8],
    ![8, 5, 12, 9, 12, 5, 14, 6, 8, 13, 6, 5, 15, 13, 11, 11]]

/-- Modelled from the spec: left-line additive round constants. -/
def ROUNDS_OFFSET : Fin 5 → Nat :=
  ![0x00000000, 0x5A827999, 0x6ED9EBA1, 0x8F1BBCDC, 0xA953FD4E]

/-- Modelled from the spec: right-line additive round constants. -/
def PROUNDS_OFFSET : Fin 5 → Nat :=
  ![0x50A28BE6, 0x5C4DD124, 0x6D703EF3, 0x7A6D76E9, 0x00000000]

/-- Modelled from the spec: the initial hash constants `H0` (the RIPEMD-160
initial value, fixed input of the core). -/
def H0 : Fin 5 → Nat :=
  ![0x67452301, 0xEFCDAB89, 0x98BADCFE, 0x10325476, 0xC3D2E1F0]

/-- `RMD160Chip::rotate_inputs`: select message words through a round's
index permutation. -/
def rotate_inputs (inputs : Fin 16 → Nat) (round_shift : Fin 16 → Fin 16) :
    Fin 16 → Nat :=
  fun i => inputs (round_shift i)

/-- Value semantics of `RMD160Chip::assign_next`: one round step.  The five
state cells handed to the next step are `[e, a_next, b, c_next, d]` (the
source's `Ok([e, a, b, c, d])`). -/
def assign_next (previous : Fin 5 → Nat) (input : Nat) (round : Fin 5)
    (index : Fin 16) (shift : Fin 5 → Fin 16 → Nat) (offset : Fin 5 → Nat)
    (pround : Bool) : Option (Fin 5 → Nat) :=
  (get_witnesses round previous input (shift round index) (offset round) pround).map
    (fun w => ![previous 4, w.a_next, previous 1, w.c_next, previous 3])

/-- Value semantics of `RMD160Chip::assign_compress`: the five digest words
`[anew, bnew, cnew, dnew, enew]` computed from the initial quintuple `r0`,
the left-line result `r1` and the right-line result `r2` by wrapping
addition under the fixed cross-lane index offset. -/
def assign_compress (r0 r1 r2 : Fin 5 → Nat) : Fin 5 → Nat :=
  ![wadd (wadd (r0 0) (r1 1)) (r2 2),
    wadd (wadd (r0 1) (r1 2)) (r2 3),
    wadd (wadd (r0 2) (r1 3)) (r2 4),
    wadd (wadd (r0 3) (r1 4)) (r2 0),
    wadd (wadd (r0 4) (r1 0)) (r2 1)]

/-- Value semantics of `RMD160Chip::assign_content`, with the row cursor
`start_offset` threaded explicitly: starting from `(start_buf, 0)`, run the
left line's 5×16 steps (each advancing the cursor by 5 rows), then the
right line's 5×16 steps from the same `start_buf`, then compress the
untouched `start_buf` with the two line results.  Returns the digest
together with the row offset at which compression is performed. -/
def assign_content_trace (start_buf : Fin 5 → Nat) (inputs : Fin 16 → Nat) :
    Option ((Fin 5 → Nat) × Nat) := do
  let s1 ← (List.finRange 5).foldlM
    (fun (acc : (Fin 5 → Nat) × Nat) round =>
      (List.finRange 16).foldlM
        (fun (acc : (Fin 5 → Nat) × Nat) index =>
          (assign_next acc.1 (rotate_inputs inputs (O round) index) round index
              R ROUNDS_OFFSET false).map (fun r => (r, acc.2 + 5)))
        acc)
    (start_buf, 0)
  let s2 ← (List.finRange 5).foldlM
    (fun (acc : (Fin 5 → Nat) × Nat) round =>
      (List.finRange 16).foldlM
        (fun (acc : (Fin 5 → Nat) × Nat) index =>
          (assign_next acc.1 (rotate_inputs inputs (PO round) index) round index
              PR PROUNDS_OFFSET true).map (fun r => (r, acc.2 + 5)))
        acc)
    (start_buf, s1.2)
  pure (assign_compress start_buf s1.1 s2.1, s2.2)

/-- The digest produced by `assign_content` (dropping the row cursor). -/
def assign_content (start_buf : Fin 5 → Nat) (inputs : Fin 16 → Nat) :
    Option (Fin 5 → Nat) :=
  (assign_content_trace start_buf inputs).map Prod.fst

/-- Modelled from the spec: an independent reference RIPEMD-160 compression
function, the oracle for the end-to-end property.  It is written in the
standard presentation of the RIPEMD-160 specification: one chaining value
`(h0..h4)`, a left line and a right line of 80 steps each, and the final
cross-wise merge `h0+B+C'`, `h1+C+D'`, `h2+D+E'`, `h3+E+A'`, `h4+A+B'`
rotated into place. -/
def rmd160_reference (h : Fin 5 → Nat) (X : Fin 16 → Nat) : Fin 5 → Nat :=
  let lineRun := fun (revFns : Bool) (perm : Fin 5 → Fin 16 → Fin 16)
      (sh : Fin 5 → Fin 16 → Nat) (k : Fin 5 → Nat) =>
    (List.finRange 5).foldl (fun st round =>
      (List.finRange 16).foldl (fun (st : Nat × Nat × Nat × Nat × Nat) index =>
        let (A, B, C, D, E) := st
        let fj := if revFns then 4 - round.val else round.val
        let T := wadd (rotl32 ((A + atomic fj B C D + X (perm round index) + k round) % 2 ^ 32)
          (sh round index)) E
        (E, T, B, rotl32 C 10, D)) st)
      (h 0, h 1, h 2, h 3, h 4)
  let (A, B, C, D, E) := lineRun false O R ROUNDS_OFFSET
  let (A', B', C', D', E') := lineRun true PO PR PROUNDS_OFFSET
  ![wadd (wadd (h 1) C) D',
    wadd (wadd (h 2) D) E',
    wadd (wadd (h 3) E) A',
    wadd (wadd (h 4) A) B',
    wadd (wadd (h 0) B) C']

/-- The message block `[1..16]` used by the end-to-end test
(`test_rmd160_circuit`). -/
def testInputs : Fin 16 → Nat :=
  ![1, 2, 3, 4, 5, 6, 7, 8, 9, 10, 11, 12, 13, 14, 15, 16]

/-- Modelled from the spec: `u32_to_limbs` of `crate::utils` (outside the
visible core): the four 8-bit limbs of a 32-bit word, least significant
first. -/
def u32_to_limbs (w : Nat) : Fin 4 → Nat :=
  fun i => (w >>> (8 * i.val)) % 2 ^ 8

/-- A 32-bit word equals the weighted sum of its four 8-bit limbs. -/
lemma limbs_reconstruct (w : Nat) (hw : w < 2 ^ 32) :
    u32_to_limbs w 0 + u32_to_limbs w 1 * 2 ^ 8 + u32_to_limbs w 2 * 2 ^ 16
      + u32_to_limbs w 3 * 2 ^ 24 = w := by
  simp only [u32_to_limbs,
    show (8 * ((0 : Fin 4) : Nat)) = 0 from rfl,
    show (8 * ((1 : Fin 4) : Nat)) = 8 from rfl,
    show (8 * ((2 : Fin 4) : Nat)) = 16 from rfl,
    show (8 * ((3 : Fin 4) : Nat)) = 24 from rfl,
    Nat.shiftRight_eq_div_pow]
  omega

/-- A value below `2^s` occupies only the bits that `a <<< s` leaves clear,
so the bitwise or is an addition. -/
lemma shiftLeft_lor_eq_add (s : Nat) :
    ∀ a b : Nat, b < 2 ^ s → a <<< s ||| b = a <<< s + b := by
  induction s with
  | zero =>
    intro a b hb
    have hb0 : b = 0 := by omega
    subst hb0
    simp
  | succ s ih =>
    intro a b hb
    have hb2 : b / 2 < 2 ^ s := by
      rw [Nat.div_lt_iff_lt_mul (by omega)]
      calc b < 2 ^ (s + 1) := hb
        _ = 2 ^ s * 2 := by rw [pow_succ]
    have ha : a <<< (s + 1) = Nat.bit false (a <<< s) := by
      simp only [Nat.shiftLeft_eq, Nat.bit_val, Bool.toNat_false, pow_succ]
      ring
    have hbd := Nat.bodd_add_div2 b
    conv_lhs => rw [← Nat.bit_decomp b]
    rw [ha, Nat.lor_bit, Bool.false_or, Nat.div2_val,
      ih a (b / 2) hb2, Nat.bit_val, Nat.bit_val]
    simp only [Bool.toNat_false, Nat.shiftLeft_eq, pow_succ, Nat.div2_val] at *
    omega

/-- For a 32-bit word and a shift in `[1,31]`, the machine rotation agrees
with the split form `low * 2^s + high` where `high = w / 2^(32-s)` and
`low = w % 2^(32-s)`. -/
lemma rotl32_eq_split (w s : Nat) (hw : w < 2 ^ 32) (h1 : 1 ≤ s) (h2 : s ≤ 31) :
    rotl32 w s = (w % 2 ^ (32 - s)) * 2 ^ s + w / 2 ^ (32 - s) := by
  have hs : s % 32 = s := Nat.mod_eq_of_lt (by omega)
  have hpow : (2 : Nat) ^ (32 - s) * 2 ^ s = 2 ^ 32 := by
    rw [← pow_add]; congr 1; omega
  have hd : w / 2 ^ (32 - s) < 2 ^ s := by
    rw [Nat.div_lt_iff_lt_mul (Nat.pos_pow_of_pos _ (by omega))]
    calc w < 2 ^ 32 := hw
      _ = 2 ^ s * 2 ^ (32 - s) := by rw [← hpow]; ring
  unfold rotl32
  rw [hs, Nat.shiftRight_eq_div_pow, shiftLeft_lor_eq_add s w _ hd,
    Nat.shiftLeft_eq]
  have hm : w * 2 ^ s % 2 ^ 32 = (w % 2 ^ (32 - s)) * 2 ^ s := by
    rw [← hpow, Nat.mul_mod_mul_right]
  have hmod : w % 2 ^ (32 - s) < 2 ^ (32 - s) :=
    Nat.mod_lt _ (Nat.pos_pow_of_pos _ (by omega))
  have hlt : (w % 2 ^ (32 - s)) * 2 ^ s + w / 2 ^ (32 - s) < 2 ^ 32 := by
    calc (w % 2 ^ (32 - s)) * 2 ^ s + w / 2 ^ (32 - s)
        < (w % 2 ^ (32 - s)) * 2 ^ s + 2 ^ s := by omega
      _ = (w % 2 ^ (32 - s) + 1) * 2 ^ s := by ring
      _ ≤ 2 ^ (32 - s) * 2 ^ s := Nat.mul_le_mul_right _ (by omega)
      _ = 2 ^ 32 := hpow
  calc (w * 2 ^ s + w / 2 ^ (32 - s)) % 2 ^ 32
      = (w * 2 ^ s % 2 ^ 32 + w / 2 ^ (32 - s)) % 2 ^ 32 := by
        rw [Nat.mod_add_mod]
    _ = ((w % 2 ^ (32 - s)) * 2 ^ s + w / 2 ^ (32 - s)) % 2 ^ 32 := by rw [hm]
    _ = (w % 2 ^ (32 - s)) * 2 ^ s + w / 2 ^ (32 - s) := Nat.mod_eq_of_lt hlt

/-- The chain of `wrapping_add`s equals one modular sum. -/
lemma wadd_chain (r a x o : Nat) :
    wadd (wadd (wadd r a) x) o = (a + r + x + o) % 2 ^ 32 := by
  unfold wadd
  omega

/-- The round mixing function stays below `2^32` on 32-bit inputs. -/
lemma atomic_lt (j x y z : Nat) (hx : x < 2 ^ 32) (hy : y < 2 ^ 32)
    (hz : z < 2 ^ 32) : atomic j x y z < 2 ^ 32 := by
  have hm : mask32 < 2 ^ 32 := by unfold mask32; omega
  unfold atomic
  split
  · exact Nat.xor_lt_two_pow (Nat.xor_lt_two_pow hx hy) hz
  · exact Nat.or_lt_two_pow (Nat.and_lt_two_pow _ hy) (Nat.and_lt_two_pow _ hz)
  · exact Nat.xor_lt_two_pow (Nat.or_lt_two_pow hx (Nat.xor_lt_two_pow hy hm)) hz
  · exact Nat.or_lt_two_pow (Nat.and_lt_two_pow _ hz)
      (Nat.and_lt_two_pow _ (Nat.xor_lt_two_pow hz hm))
  · exact Nat.xor_lt_two_pow hx (Nat.or_lt_two_pow hy (Nat.xor_lt_two_pow hz hm))

/-- The bn256 scalar field modulus: the circuit is instantiated at
`halo2curves::bn256::Fr` in the test harness. -/
def rmdP : Nat :=
  21888242871839275222246405745257275088548364400416034343698204186575808495617

/-- The constraint system's native field. -/
abbrev F : Type := ZMod rmdP

/-- `GateCell`: a cell reference `[kind, col, row]` (kind 0 = advice,
1 = fixed, 2 = selector) plus a debug name. -/
structure GateCell where
  cell : Nat × Nat × Nat
  name : String
  deriving Repr, DecidableEq

/-- `GateCell::adv`. -/
def GateCell.adv (col row : Nat) (dbg : String) : GateCell := ⟨(0, col, row), dbg⟩

/-- `GateCell::fix`. -/
def GateCell.fix (col row : Nat) (dbg : String) : GateCell := ⟨(1, col, row), dbg⟩

/-- `GateCell::sel`. -/
def GateCell.sel (col row : Nat) (dbg : String) : GateCell := ⟨(2, col, row), dbg⟩

namespace RoundGate

def hsel (i : Nat) : GateCell := GateCell.sel 0 0 ("hsel" ++ toString i)

def rsel (i : Nat) : GateCell := GateCell.sel 1 i ("hsel" ++ toString i)

def offset : GateCell := GateCell.fix 0 0 "offset"

def w1_r : GateCell := GateCell.fix 0 1 "w1r"

def w1_rr : GateCell := GateCell.fix 0 2 "w1rr"

def a : GateCell := GateCell.adv 0 0 "a"

def w0 : GateCell := GateCell.adv 0 1 "w0"

def wb : GateCell := GateCell.adv 0 2 "wb"

def wc : GateCell := GateCell.adv 0 3 "wc"

def w1 : GateCell := GateCell.adv 0 4 "w1"

def b : GateCell := GateCell.adv 1 0 "b"

def c : GateCell := GateCell.adv 2 0 "c"

def d : GateCell := GateCell.adv 3 0 "d"

def x : GateCell := GateCell.adv 4 0 "x"

def e : GateCell := GateCell.adv 5 0 "e"

def blimb (i : Nat) : GateCell := GateCell.adv 1 (i + 1) ("blimb" ++ toString i)

def climb (i : Nat) : GateCell := GateCell.adv 2 (i + 1) ("climb" ++ toString i)

def dlimb (i : Nat) : GateCell := GateCell.adv 3 (i + 1) ("dlimb" ++ toString i)

def rlimb (i : Nat) : GateCell := GateCell.adv 4 (i + 1) ("rlimb" ++ toString i)

def w1_h : GateCell := GateCell.adv 5 1 "w1h"

def w1_l : GateCell := GateCell.adv 5 2 "w1l"

def a_next : GateCell := GateCell.adv 5 3 "anext"

def c_next : GateCell := GateCell.adv 6 0 "cnext"

def w4_h : GateCell := GateCell.adv 6 1 "w4h"

def w4_l : GateCell := GateCell.adv 6 2 "w4l"

def w2b : GateCell := GateCell.adv 6 3 "w2b"

def w2c : GateCell := GateCell.adv 6 4 "w2c"

end RoundGate

namespace CompressGate

def rsel (i : Nat) : GateCell := GateCell.sel 1 i ("hsel" ++ toString i)

def a : GateCell := GateCell.adv 0 0 "a"

def b : GateCell := GateCell.adv 0 1 "b"

def c : GateCell := GateCell.adv 0 2 "c"

def d : GateCell := GateCell.adv 0 3 "d"

def e : GateCell := GateCell.adv 0 4 "e"

def b1 : GateCell := GateCell.adv 1 0 "b1"

def c1 : GateCell := GateCell.adv 1 1 "c1"

def d1 : GateCell := GateCell.adv 1 2 "d1"

def e1 : GateCell := GateCell.adv 1 3 "e1"

def a1 : GateCell := GateCell.adv 1 4 "a1"

def c2 : GateCell := GateCell.adv 2 0 "c2"

def d2 : GateCell := GateCell.adv 2 1 "d2"

def e2 : GateCell := GateCell.adv 2 2 "e2"

def a2 : GateCell := GateCell.adv 2 3 "a2"

def b2 : GateCell := GateCell.adv 2 4 "b2"

def sum0 : GateCell := GateCell.adv 3 0 "sum0"

def sum1 : GateCell := GateCell.adv 3 1 "sum1"

def sum2 : GateCell := GateCell.adv 3 2 "sum2"

def sum3 : GateCell := GateCell.adv 3 3 "sum3"

def sum4 : GateCell := GateCell.adv 3 4 "sum4"

def ca0 : GateCell := GateCell.adv 4 0 "ca0"

def ca1 : GateCell := GateCell.adv 4 1 "ca1"

def ca2 : GateCell := GateCell.adv 4 2 "ca2"

def ca3 : GateCell := GateCell.adv 4 3 "ca3"

def ca4 : GateCell := GateCell.adv 4 4 "ca4"

def bnew : GateCell := GateCell.adv 4 0 "bnew"

def cnew : GateCell := GateCell.adv 4 1 "cnew"

def dnew : GateCell := GateCell.adv 4 2 "dnew"

def enew : GateCell := GateCell.adv 4 3 "enew"

def anew : GateCell := GateCell.adv 4 4 "anew"

end CompressGate

/-- An assignment of field values to the cells of one gate window:
advice columns at row rotations, fixed columns at row rotations, and the
two selectors (`RMD160Config::get_expr` ignores the row of a selector). -/
structure Assignment where
  adv : Nat → Nat → F
  fx : Nat → Nat → F
  sel : Nat → F

/-- `RMD160Config::get_expr`: look a `GateCell` up in an assignment. -/
def getExpr (m : Assignment) (g : GateCell) : F :=
  if g.cell.1 = 0 then m.adv g.cell.2.1 g.cell.2.2
  else if g.cell.1 = 1 then m.fx g.cell.2.1 g.cell.2.2
  else m.sel g.cell.2.1

/-- The "sum with bound" gate of `configure`: the limb-recomposition of `r`
plus the bounded-sum identity for `w0`/`wb`/`wc`.  (The commented-out
range check on `wc` in the source is *not* part of the gate.) -/
def gate_sum_with_bound (m : Assignment) : List F :=
  let sum_r := getExpr m (RoundGate.rlimb 0)
    + getExpr m (RoundGate.rlimb 1) * (2 ^ 8 : F)
    + getExpr m (RoundGate.rlimb 2) * (2 ^ 16 : F)
    + getExpr m (RoundGate.rlimb 3) * (2 ^ 24 : F)
  let w0 := getExpr m RoundGate.w0
  let wb := getExpr m RoundGate.wb
  let wc := getExpr m RoundGate.wc
  let a := getExpr m RoundGate.a
  let x := getExpr m RoundGate.x
  let offset := getExpr m RoundGate.offset
  let hsel := getExpr m (RoundGate.hsel 0)
  [(wb - sum_r - a - x - offset) * hsel,
   (w0 + wc * (2 ^ 32 : F) - wb) * hsel]

/-- The "sum with w1 rol4" gate of `configure`: the second bounded sum for
`a_next`, including the `w2c * (w2c - 1)` range constraint. -/
def gate_sum_with_w1_rol4 (m : Assignment) : List F :=
  let a_next := getExpr m RoundGate.a_next
  let hsel := getExpr m (RoundGate.hsel 0)
  let w1 := getExpr m RoundGate.w1
  let w2b := getExpr m RoundGate.w2b
  let w2c := getExpr m RoundGate.w2c
  let e := getExpr m RoundGate.e
  [(w2b - w1 - e) * hsel,
   (w2c * (w2c - 1)) * hsel,
   (a_next + w2c * (2 ^ 32 : F) - w2b) * hsel]

/-- The "limbs sum" gate of `configure`: `b`, `c`, `d` equal the weighted
sums of their limbs. -/
def gate_limbs_sum (m : Assignment) : List F :=
  let hsel := getExpr m (RoundGate.hsel 0)
  let b := getExpr m RoundGate.b
  let sum_b := getExpr m (RoundGate.blimb 0)
    + getExpr m (RoundGate.blimb 1) * (2 ^ 8 : F)
    + getExpr m (RoundGate.blimb 2) * (2 ^ 16 : F)
    + getExpr m (RoundGate.blimb 3) * (2 ^ 24 : F)
  let c := getExpr m RoundGate.c
  let sum_c := getExpr m (RoundGate.climb 0)
    + getExpr m (RoundGate.climb 1) * (2 ^ 8 : F)
    + getExpr m (RoundGate.climb 2) * (2 ^ 16 : F)
    + getExpr m (RoundGate.climb 3) * (2 ^ 24 : F)
  let d := getExpr m RoundGate.d
  let sum_d := getExpr m (RoundGate.dlimb 0)
    + getExpr m (RoundGate.dlimb 1) * (2 ^ 8 : F)
    + getExpr m (RoundGate.dlimb 2) * (2 ^ 16 : F)
    + getExpr m (RoundGate.dlimb 3) * (2 ^ 24 : F)
  [(sum_b - b) * hsel,
   (sum_c - c) * hsel,
   (sum_d - d) * hsel]

/-- The "c rotate" gate of `configure`: the fixed rotate-by-10 of `c`,
split at bit 22. -/
def gate_c_rotate (m : Assignment) : List F :=
  let hsel := getExpr m (RoundGate.hsel 0)
  let c := getExpr m RoundGate.c
  let c_next := getExpr m RoundGate.c_next
  let w4l := getExpr m RoundGate.w4_l
  let w4h := getExpr m RoundGate.w4_h
  [(w4h * (2 ^ 22 : F) + w4l - c) * hsel,
   (w4l * (2 ^ 10 : F) + w4h - c_next) * hsel]

/-- The "w0 rotate" gate of `configure`: the variable-boundary rotation of
`w0`, with the per-row fixed cells `w1_r` and `w1_rr` as multipliers. -/
def gate_w0_rotate (m : Assignment) : List F :=
  let hsel := getExpr m (RoundGate.hsel 0)
  let w0 := getExpr m RoundGate.w0
  let w1 := getExpr m RoundGate.w1
  let w1l := getExpr m RoundGate.w1_l
  let w1h := getExpr m RoundGate.w1_h
  let shift := getExpr m RoundGate.w1_r
  let shift2 := getExpr m RoundGate.w1_rr
  [(w1h * shift2 + w1l - w0) * hsel,
   (w1l * shift + w1h - w1) * hsel]

/-- All polynomial constraints created by `RMD160Chip::configure`, in
creation order.  No other gate is created: in particular none mentions the
`CompressGate` layout. -/
def configure : List (Assignment → List F) :=
  [gate_sum_with_bound, gate_sum_with_w1_rol4, gate_limbs_sum,
   gate_c_rotate, gate_w0_rotate]

/-- An assignment satisfies the configured constraint system when every
expression of every created gate evaluates to zero. -/
def satisfiesConfigure (m : Assignment) : Prop :=
  ∀ g ∈ configure, ∀ e ∈ g m, e = 0

instance (m : Assignment) : Decidable (satisfiesConfigure m) := by
  unfold satisfiesConfigure
  infer_instance

/-- The ordered sequence of advice-cell writes performed by
`RMD160Chip::assign_compress`: fifteen `bind_cell`s of the three input
quintuples, then for each digest word its full field sum, its carry and
the wrapped digest word.  Note the c-block writes its carry to
`CompressGate::ca0` (as the source does), and values are the exact
integers written (all far below the field modulus). -/
def compress_writes (r0 r1 r2 : Fin 5 → Nat) : List (GateCell × Nat) :=
  [(CompressGate.a, r0 0), (CompressGate.b, r0 1), (CompressGate.c, r0 2),
   (CompressGate.d, r0 3), (CompressGate.e, r0 4),
   (CompressGate.a1, r1 0), (CompressGate.b1, r1 1), (CompressGate.c1, r1 2),
   (CompressGate.d1, r1 3), (CompressGate.e1, r1 4),
   (CompressGate.a2, r2 0), (CompressGate.b2, r2 1), (CompressGate.c2, r2 2),
   (CompressGate.d2, r2 3), (CompressGate.e2, r2 4),
   (CompressGate.sum0, r0 0 + r1 1 + r2 2),
   (CompressGate.ca0,
     (r0 0 + r1 1 + r2 2 - wadd (wadd (r0 0) (r1 1)) (r2 2)) >>> 32),
   (CompressGate.anew, wadd (wadd (r0 0) (r1 1)) (r2 2)),
   (CompressGate.sum1, r0 1 + r1 2 + r2 3),
   (CompressGate.ca1,
     (r0 1 + r1 2 + r2 3 - wadd (wadd (r0 1) (r1 2)) (r2 3)) >>> 32),
   (CompressGate.bnew, wadd (wadd (r0 1) (r1 2)) (r2 3)),
   (CompressGate.sum2, r0 2 + r1 3 + r2 4),
   (CompressGate.ca0,
     (r0 2 + r1 3 + r2 4 - wadd (wadd (r0 2) (r1 3)) (r2 4)) >>> 32),
   (CompressGate.cnew, wadd (wadd (r0 2) (r1 3)) (r2 4)),
   (CompressGate.sum3, r0 3 + r1 4 + r2 0),
   (CompressGate.ca3,
     (r0 3 + r1 4 + r2 0 - wadd (wadd (r0 3) (r1 4)) (r2 0)) >>> 32),
   (CompressGate.dnew, wadd (wadd (r0 3) (r1 4)) (r2 0)),
   (CompressGate.sum4, r0 4 + r1 0 + r2 1),
   (CompressGate.ca4,
     (r0 4 + r1 0 + r2 1 - wadd (wadd (r0 4) (r1 0)) (r2 1)) >>> 32),
   (CompressGate.enew, wadd (wadd (r0 4) (r1 0)) (r2 1))]

/-- One line of the schedule as the spec describes it: a single loop over 5
rounds of 16 steps, parametrized by the line's descriptor (index
permutation, shift table, constant table, round-function direction). -/
def lineFold (start : Fin 5 → Nat) (inputs : Fin 16 → Nat)
    (perm : Fin 5 → Fin 16 → Fin 16) (sh : Fin 5 → Fin 16 → Nat)
    (off : Fin 5 → Nat) (pr : Bool) : Option (Fin 5 → Nat) :=
  (List.finRange 5).foldlM (fun st round =>
    (List.finRange 16).foldlM (fun st index =>
      assign_next st (inputs (perm round index)) round index sh off pr) st) start

/-- Threading a row cursor through a nested fallible fold only adds
`k * (inner steps) * (outer steps)` to the cursor. -/
lemma nested_foldlM_offset {α β γ : Type} (outer : List γ) (inner : List β)
    (f : α → γ → β → Option α) (k : Nat) (a : α) (n : Nat) :
    outer.foldlM (fun (p : α × Nat) r =>
        inner.foldlM (fun (p : α × Nat) b =>
          (f p.1 r b).map (fun x => (x, p.2 + k))) p) (a, n)
      = (outer.foldlM (fun st r =>
          inner.foldlM (fun st b => f st r b) st) a).map
          (fun x => (x, n + k * (inner.length * outer.length))) := by
  have hinner : ∀ (r : γ) (a : α) (n : Nat),
      inner.foldlM (fun (p : α × Nat) b =>
          (f p.1 r b).map (fun x => (x, p.2 + k))) (a, n)
        = (inner.foldlM (fun st b => f st r b) a).map
            (fun x => (x, n + k * inner.length)) := by
    intro r
    induction inner with
    | nil => intro a n; simp
    | cons b t ih =>
      intro a n
      cases hfa : f a r b with
      | none => simp [List.foldlM_cons, hfa]
      | some a' =>
        simp only [List.foldlM_cons, hfa, Option.map_some', Option.bind_eq_bind,
          Option.some_bind]
        rw [ih a' (n + k)]
        have hnum : n + k + k * t.length = n + k * (b :: t).length := by
          simp only [List.length_cons]
          ring
        rw [hnum]
  induction outer generalizing a n with
  | nil => simp
  | cons r t ih =>
    cases hfa : inner.foldlM (fun st b => f st r b) a with
    | none => simp [List.foldlM_cons, hinner r a n, hfa]
    | some a' =>
      simp only [List.foldlM_cons, hinner r a n, hfa, Option.map_some',
        Option.bind_eq_bind, Option.some_bind]
      rw [ih a' (n + k * inner.length)]
      have hnum : n + k * inner.length + k * (inner.length * t.length)
          = n + k * (inner.length * (r :: t).length) := by
        simp only [List.length_cons]
        ring
      rw [hnum]

/-- Every machine rotation result is a 32-bit word. -/
lemma rotl32_lt (w s : Nat) : rotl32 w s < 2 ^ 32 :=
  Nat.mod_lt _ (Nat.pos_pow_of_pos _ (by omega))

/-- The all-zero state, a convenient concrete input. -/
def rolZ : Fin 5 → Nat := fun _ => 0

/-- The round witness computed at the all-zero input with shift 1. -/
def wZ : RoundWitness := ⟨0, 0, 0, 0, 0, 0, 0, 0, 0, 0, 0, 0, 0⟩

/-- C1: for 32-bit state words, message word, shift `s ∈ [1,31]`, round
constant and round selector, `get_witnesses` computes the round mixing
value `r = f(b,c,d)` (with the selector choosing `f_round` on the left
line and `f_{4-round}` on the right line), the bounded sum
`w0 = (a+r+x+const) mod 2^32`, the rotation `w1 = rotate_left(w0,s)` with
the split `w1_h = w0 >> (32-s)`, `w1_l = w0 mod 2^(32-s)`, the next
accumulator `a_next = (w1+e) mod 2^32`, and the fixed rotation
`c_next = rotate_left(c,10)` with the split `w4_h = c >> 22`,
`w4_l = c mod 2^22`. -/
theorem C1_get_witnesses_round_formulas
    (rol : Fin 5 → Nat) (x shift offset : Nat) (round : Nat) (pround : Bool)
    (w : RoundWitness)
    (hs1 : 1 ≤ shift) (hs2 : shift ≤ 31)
    (hw : get_witnesses round rol x shift offset pround = some w) :
    w.r = atomic (if pround then 5 - round - 1 else round) (rol 1) (rol 2) (rol 3)
    ∧ w.w0 = (rol 0 + w.r + x + offset) % 2 ^ 32
    ∧ w.w1 = rotl32 w.w0 shift
    ∧ w.w1_h = w.w0 >>> (32 - shift)
    ∧ w.w1_l = w.w0 % 2 ^ (32 - shift)
    ∧ w.a_next = (w.w1 + rol 4) % 2 ^ 32
    ∧ w.c_next = rotl32 (rol 2) 10
    ∧ w.w4_h = rol 2 >>> 22
    ∧ w.w4_l = rol 2 % 2 ^ 22 := by
  unfold get_witnesses at hw
  rw [if_pos (by omega : 1 ≤ shift ∧ shift ≤ 32)] at hw
  injection hw with hw
  subst hw
  refine ⟨rfl, ?_, rfl, rfl, rfl, rfl, rfl, rfl, rfl⟩
  exact wadd_chain _ _ _ _

/-- C1 witness: the theorem applied at the all-zero input with shift 1. -/
theorem C1_witness :
    get_witnesses 0 rolZ 0 1 0 false = some wZ
    ∧ wZ.w0 = (rolZ 0 + wZ.r + 0 + 0) % 2 ^ 32
    ∧ wZ.c_next = rotl32 (rolZ 2) 10 :=
  ⟨by decide,
   (C1_get_witnesses_round_formulas rolZ 0 1 0 0 false wZ (by decide) (by decide)
      (by decide)).2.1,
   (C1_get_witnesses_round_formulas rolZ 0 1 0 0 false wZ (by decide) (by decide)
      (by decide)).2.2.2.2.2.2.1⟩

/-- C4: for 32-bit inputs the two carry witnesses are the integer
quotients of the corresponding sums by `2^32`; the four-way carry `wc`
lies in `{0,1,2,3}` and the two-way carry `w2c` lies in `{0,1}`. -/
theorem C4_carry_ranges
    (rol : Fin 5 → Nat) (x shift offset : Nat) (round : Nat) (pround : Bool)
    (w : RoundWitness)
    (h5 : ∀ i, rol i < 2 ^ 32) (hx : x < 2 ^ 32) (ho : offset < 2 ^ 32)
    (hs1 : 1 ≤ shift) (hs2 : shift ≤ 31)
    (hw : get_witnesses round rol x shift offset pround = some w) :
    w.wc = (rol 0 + w.r + x + offset) / 2 ^ 32 ∧ w.wc < 4
    ∧ w.w2c = (w.w1 + rol 4) / 2 ^ 32 ∧ w.w2c < 2 := by
  unfold get_witnesses at hw
  rw [if_pos (by omega : 1 ≤ shift ∧ shift ≤ 32)] at hw
  injection hw with hw
  subst hw
  have hr : atomic (if pround then 5 - round - 1 else round) (rol 1) (rol 2) (rol 3)
      < 2 ^ 32 := atomic_lt _ _ _ _ (h5 1) (h5 2) (h5 3)
  have h0 := h5 0
  have h4 := h5 4
  have hw1 : rotl32 (wadd (wadd (wadd
      (atomic (if pround then 5 - round - 1 else round) (rol 1) (rol 2) (rol 3))
      (rol 0)) x) offset) shift < 2 ^ 32 := rotl32_lt _ _
  have hchain := wadd_chain
    (atomic (if pround then 5 - round - 1 else round) (rol 1) (rol 2) (rol 3))
    (rol 0) x offset
  refine ⟨?_, ?_, ?_, ?_⟩ <;>
    simp only [Nat.shiftRight_eq_div_pow] <;>
    unfold wadd at * <;>
    omega

/-- C4 witness: the theorem applied at the all-zero input with shift 1. -/
theorem C4_witness :
    get_witnesses 0 rolZ 0 1 0 false = some wZ ∧ wZ.wc < 4 ∧ wZ.w2c < 2 :=
  ⟨by decide,
   (C4_carry_ranges rolZ 0 1 0 0 false wZ (by decide) (by decide)
      (by decide) (by decide) (by decide) (by decide)).2.1,
   (C4_carry_ranges rolZ 0 1 0 0 false wZ (by decide) (by decide)
      (by decide) (by decide) (by decide) (by decide)).2.2.2⟩

/-- C6: for every 32-bit word `w0` and shift `s ∈ [1,31]` (boundaries
included), the witnesses `high = w0 >> (32-s)` and `low = w0 mod 2^(32-s)`
satisfy the two rotation equations `w0 = high*2^(32-s) + low` and
`rotate_left(w0,s) = low*2^s + high`; and on a row with the round selector
enabled and the fixed cells holding `w1_r = 2^s`, `w1_rr = 2^(32-s)`, the
"w0 rotate" gate vanishes exactly when those two linear equations hold
between the cells. -/
theorem C6_variable_rotation (w0v s : Nat) (hw : w0v < 2 ^ 32)
    (hs1 : 1 ≤ s) (hs2 : s ≤ 31) :
    (w0v = (w0v >>> (32 - s)) * 2 ^ (32 - s) + w0v % 2 ^ (32 - s)
     ∧ rotl32 w0v s = (w0v % 2 ^ (32 - s)) * 2 ^ s + w0v >>> (32 - s))
    ∧ ∀ m : Assignment,
        getExpr m (RoundGate.hsel 0) = 1 →
        getExpr m RoundGate.w1_r = (2 ^ s : F) →
        getExpr m RoundGate.w1_rr = (2 ^ (32 - s) : F) →
        ((∀ e ∈ gate_w0_rotate m, e = 0) ↔
          (getExpr m RoundGate.w1_h * (2 ^ (32 - s) : F) + getExpr m RoundGate.w1_l
              = getExpr m RoundGate.w0
           ∧ getExpr m RoundGate.w1_l * (2 ^ s : F) + getExpr m RoundGate.w1_h
              = getExpr m RoundGate.w1)) := by
  constructor
  · constructor
    · rw [Nat.shiftRight_eq_div_pow, Nat.mul_comm]
      exact (Nat.div_add_mod _ _).symm
    · rw [Nat.shiftRight_eq_div_pow]
      exact rotl32_eq_split w0v s hw hs1 hs2
  · intro m h1 hr hrr
    simp [gate_w0_rotate, h1, hr, hrr, sub_eq_zero]

/-- C6 witness: the theorem applied at `w0 = 0xDEADBEEF`, `s = 31`. -/
theorem C6_witness :
    (0xDEADBEEF : Nat) < 2 ^ 32
    ∧ rotl32 0xDEADBEEF 31
        = (0xDEADBEEF % 2 ^ (32 - 31)) * 2 ^ 31 + 0xDEADBEEF >>> (32 - 31) :=
  ⟨by decide,
   ((C6_variable_rotation 0xDEADBEEF 31 (by decide) (by decide) (by decide)).1).2⟩

/-- C9: every 32-bit word is reconstructed exactly by its four 8-bit limbs
(each limb lies in `[0,256)`), and on a row with the round selector enabled
the "limbs sum" gate vanishes exactly when `b`, `c` and `d` each equal the
weighted sums of their limb cells. -/
theorem C9_limb_decomposition (w : Nat) (hw : w < 2 ^ 32) :
    (u32_to_limbs w 0 + u32_to_limbs w 1 * 2 ^ 8 + u32_to_limbs w 2 * 2 ^ 16
        + u32_to_limbs w 3 * 2 ^ 24 = w
     ∧ ∀ i, u32_to_limbs w i < 256)
    ∧ ∀ m : Assignment,
        getExpr m (RoundGate.hsel 0) = 1 →
        ((∀ e ∈ gate_limbs_sum m, e = 0) ↔
          (getExpr m (RoundGate.blimb 0) + getExpr m (RoundGate.blimb 1) * (2 ^ 8 : F)
              + getExpr m (RoundGate.blimb 2) * (2 ^ 16 : F)
              + getExpr m (RoundGate.blimb 3) * (2 ^ 24 : F) = getExpr m RoundGate.b
           ∧ getExpr m (RoundGate.climb 0) + getExpr m (RoundGate.climb 1) * (2 ^ 8 : F)
              + getExpr m (RoundGate.climb 2) * (2 ^ 16 : F)
              + getExpr m (RoundGate.climb 3) * (2 ^ 24 : F) = getExpr m RoundGate.c
           ∧ getExpr m (RoundGate.dlimb 0) + getExpr m (RoundGate.dlimb 1) * (2 ^ 8 : F)
              + getExpr m (RoundGate.dlimb 2) * (2 ^ 16 : F)
              + getExpr m (RoundGate.dlimb 3) * (2 ^ 24 : F) = getExpr m RoundGate.d)) := by
  constructor
  · constructor
    · exact limbs_reconstruct w hw
    · intro i
      have hvi : u32_to_limbs w i = (w >>> (8 * i.val)) % 2 ^ 8 := rfl
      rw [hvi]
      exact Nat.mod_lt _ (by norm_num)
  · intro m h1
    simp [gate_limbs_sum, h1, sub_eq_zero]

/-- C9 witness: the theorem applied at `w = 0x0A0B0C0D`. -/
theorem C9_witness :
    (0x0A0B0C0D : Nat) < 2 ^ 32
    ∧ u32_to_limbs 0x0A0B0C0D 0 + u32_to_limbs 0x0A0B0C0D 1 * 2 ^ 8
        + u32_to_limbs 0x0A0B0C0D 2 * 2 ^ 16 + u32_to_limbs 0x0A0B0C0D 3 * 2 ^ 24
        = 0x0A0B0C0D :=
  ⟨by decide, ((C9_limb_decomposition 0x0A0B0C0D (by decide)).1).1⟩

set_option maxRecDepth 1000000 in
/-- C2 counterexample: with the RIPEMD-160 initial value and the message
block `[1..16]`, the digest produced by `assign_content` does *not* equal
the reference RIPEMD-160 compression output word-for-word (it is that
output rotated by one position; see the amended theorem). -/
theorem C2_counterexample :
    (assign_content H0 testInputs).map (fun f => List.ofFn f)
      ≠ some (List.ofFn (rmd160_reference H0 testInputs)) := by
  decide

set_option maxRecDepth 1000000 in
/-- C2 amended: with the RIPEMD-160 initial value and the message block
`[1..16]`, the digest produced by `assign_content` equals the reference
RIPEMD-160 compression output cyclically rotated by one word:
`digest[i] = reference[i + 4 mod 5]` (so `digest = [ref4, ref0, ref1,
ref2, ref3]`). -/
theorem C2_amended_digest :
    (assign_content H0 testInputs).map (fun f => List.ofFn f)
      = some (List.ofFn (fun i => rmd160_reference H0 testInputs (i + 4))) := by
  decide

/-- C7 counterexample: a shift-table entry of 32 is *not* rejected:
`get_witnesses` succeeds on it, silently producing the degenerate split
`w1_h = w0`, `w1_l = 0` (here at state 0, message word 5). -/
theorem C7_counterexample :
    get_witnesses 0 rolZ 5 32 0 false = some ⟨0, 5, 5, 0, 5, 5, 0, 5, 5, 0, 0, 0, 0⟩ := by
  decide

/-- C7 amended: there is no table validation in the core.  A permutation
table with fewer than 16 entries per round is unrepresentable (the
fixed-size array type `[[u32;16];5]` excludes it statically).  A shift
entry of 0 makes witness generation fail (a Rust arithmetic panic,
modelled as `none`), while a shift entry of 32 is accepted and a trace is
built from it. -/
theorem C7_amended :
    (∀ (rol : Fin 5 → Nat) (x offset : Nat) (round : Nat) (pround : Bool),
      get_witnesses round rol x 0 offset pround = none)
    ∧ ∀ (rol : Fin 5 → Nat) (x offset : Nat) (round : Nat) (pround : Bool),
      (get_witnesses round rol x 32 offset pround).isSome = true := by
  constructor
  · intro rol x offset round pround
    unfold get_witnesses
    rw [if_neg (by omega)]
  · intro rol x offset round pround
    unfold get_witnesses
    rw [if_pos (by omega)]
    rfl

/-- An assignment with every selector off and a single nonzero advice cell
at the position of `CompressGate::anew` (column 4, row 4). -/
def badAsg : Assignment where
  adv := fun c r => if c = 4 ∧ r = 4 then 1 else 0
  fx := fun _ _ => 0
  sel := fun _ => 0

/-- C3 counterexample: the constraint system does not enforce the
compression step.  `badAsg` satisfies every constraint created in
`configure` (both selectors are off, and `assign_compress` enables none),
yet its `anew` cell violates the claimed bounded-sum relation
`anew + ca0*2^32 = a + b1 + c2` (here `1 + 0 ≠ 0`). -/
theorem C3_counterexample :
    satisfiesConfigure badAsg
    ∧ ¬ (getExpr badAsg CompressGate.anew
          + getExpr badAsg CompressGate.ca0 * (2 ^ 32 : F)
        = getExpr badAsg CompressGate.a + getExpr badAsg CompressGate.b1
          + getExpr badAsg CompressGate.c2) := by
  constructor
  · decide
  · decide

/-- C3 amended: `assign_compress` *computes* each digest word as the
word-wise wrapping sum of the three quintuples under the fixed cross-lane
index offset (`out[i] = (r0[i] + r1[i+1] + r2[i+2]) mod 2^32`, indices mod
5), but no constraint created in `configure` enforces it: every gate is
multiplied by the round selector, so any assignment with that selector off
satisfies the whole constraint system regardless of the compression
cells. -/
theorem C3_amended :
    (∀ (r0 r1 r2 : Fin 5 → Nat) (i : Fin 5),
        assign_compress r0 r1 r2 i = (r0 i + r1 (i + 1) + r2 (i + 2)) % 2 ^ 32)
    ∧ ∀ m : Assignment, m.sel 0 = 0 → satisfiesConfigure m := by
  constructor
  · intro r0 r1 r2 i
    fin_cases i <;>
      simp [assign_compress, wadd]
  · intro m hm g hg e he
    have hsel : getExpr m (RoundGate.hsel 0) = 0 := by
      simp [getExpr, RoundGate.hsel, GateCell.sel, hm]
    fin_cases hg <;>
      simp only [gate_sum_with_bound, gate_sum_with_w1_rol4, gate_limbs_sum,
        gate_c_rotate, gate_w0_rotate, hsel, mul_zero, List.mem_cons,
        List.not_mem_nil, or_false] at he <;>
      rcases he with rfl | rfl | rfl <;>
      rfl

/-- An assignment that puts an arbitrary field value `v` in the `wc` cell
and balances the two "sum with bound" equations through the unconstrained
`rlimb3` and `wb` cells, with every other advice cell zero and the round
selector on. -/
def wcAsg (v : F) : Assignment where
  adv := fun c r =>
    if c = 0 ∧ r = 2 then v * (2 ^ 32 : F)
    else if c = 0 ∧ r = 3 then v
    else if c = 4 ∧ r = 4 then v * (2 ^ 8 : F)
    else 0
  fx := fun _ _ => 0
  sel := fun _ => 1

/-- C5 counterexample: the claim that *neither* carry witness is
range-restricted by any constraint of `configure` is false: the
"sum with w1 rol4" gate contains `w2c * (w2c - 1) * hsel`, so no
assignment with the round selector enabled can put the value 2 in the
`w2c` cell. -/
theorem C5_counterexample :
    ¬ ∃ m : Assignment, satisfiesConfigure m
        ∧ getExpr m (RoundGate.hsel 0) = 1
        ∧ getExpr m RoundGate.w2c = 2 := by
  rintro ⟨m, hsat, hsel, hw⟩
  have h := hsat gate_sum_with_w1_rol4 (by simp [configure])
    ((getExpr m RoundGate.w2c * (getExpr m RoundGate.w2c - 1))
       * getExpr m (RoundGate.hsel 0))
    (by simp [gate_sum_with_w1_rol4])
  rw [hw, hsel, mul_one] at h
  have : (2 : F) * (2 - 1) = 2 := by norm_num
  rw [this] at h
  exact absurd h (by decide)

/-- C5 amended: the four-way carry `wc` is indeed never range-restricted
by any constraint of `configure` — for every field value `v` the
assignment `wcAsg v` has the round selector on, `wc = v`, and satisfies
all created constraints — but the two-way carry `w2c` *is* restricted to
`{0,1}`: every satisfying assignment with the round selector on has
`w2c * (w2c - 1) = 0`. -/
theorem C5_amended :
    (∀ v : F, satisfiesConfigure (wcAsg v)
       ∧ getExpr (wcAsg v) (RoundGate.hsel 0) = 1
       ∧ getExpr (wcAsg v) RoundGate.wc = v)
    ∧ ∀ m : Assignment, satisfiesConfigure m →
        getExpr m (RoundGate.hsel 0) = 1 →
        getExpr m RoundGate.w2c * (getExpr m RoundGate.w2c - 1) = 0 := by
  constructor
  · intro v
    refine ⟨?_, by simp [getExpr, RoundGate.hsel, GateCell.sel, wcAsg], ?_⟩
    · intro g hg e he
      fin_cases hg <;>
        simp only [gate_sum_with_bound, gate_sum_with_w1_rol4, gate_limbs_sum,
          gate_c_rotate, gate_w0_rotate, List.mem_cons, List.not_mem_nil,
          or_false] at he <;>
        rcases he with rfl | rfl | rfl <;>
        · simp [getExpr, wcAsg, RoundGate.hsel, RoundGate.rlimb, RoundGate.blimb,
            RoundGate.climb, RoundGate.dlimb, RoundGate.a, RoundGate.b,
            RoundGate.c, RoundGate.d, RoundGate.e, RoundGate.x, RoundGate.w0,
            RoundGate.wb, RoundGate.wc, RoundGate.w1, RoundGate.w1_h,
            RoundGate.w1_l, RoundGate.w1_r, RoundGate.w1_rr, RoundGate.a_next,
            RoundGate.c_next, RoundGate.w4_h, RoundGate.w4_l, RoundGate.w2b,
            RoundGate.w2c, RoundGate.offset, GateCell.adv, GateCell.fix,
            GateCell.sel]
          try ring
    · simp [getExpr, wcAsg, RoundGate.wc, GateCell.adv]
  · intro m hsat hsel
    have h := hsat gate_sum_with_w1_rol4 (by simp [configure])
      ((getExpr m RoundGate.w2c * (getExpr m RoundGate.w2c - 1))
         * getExpr m (RoundGate.hsel 0))
      (by simp [gate_sum_with_w1_rol4])
    rwa [hsel, mul_one] at h

/-- A concrete initial quintuple for exercising `compress_writes`. -/
def cw0 : Fin 5 → Nat := ![1, 2, 3, 4, 5]

/-- A concrete left-line quintuple for exercising `compress_writes`. -/
def cw1 : Fin 5 → Nat := ![6, 7, 8, 9, 10]

/-- A concrete right-line quintuple for exercising `compress_writes`. -/
def cw2 : Fin 5 → Nat := ![11, 12, 13, 14, 15]

/-- C10 counterexample: not *each* digest-word assignment overwrites a
previously assigned carry cell.  In the write sequence of
`assign_compress` the write of `anew` (entry 17) is the *first* write to
its cell (column 4, row 4): no earlier entry targets that position (the
carry `ca4` is only written later, clobbering `anew`). -/
theorem C10_counterexample :
    (compress_writes cw0 cw1 cw2).getD 17 (CompressGate.a, 0)
        = (CompressGate.anew, 21)
    ∧ ∀ p ∈ (compress_writes cw0 cw1 cw2).take 17,
        p.1.cell ≠ CompressGate.anew.cell := by
  constructor
  · decide
  · decide

/-- C10 amended: the five carry cells and the five output cells of
`CompressGate` are declared at identical advice positions (column 4, rows
0..4): `ca0`/`bnew`, `ca1`/`cnew`, `ca2`/`dnew`, `ca3`/`enew`,
`ca4`/`anew` coincide.  Consequently, in `assign_compress`'s write
sequence the c-sum's carry is written at `ca0`'s position instead of
`ca2`'s (entry 22), and some trace cells receive two distinct values: the
digest-word writes of `bnew` (entry 20), `cnew` (entry 23) and `enew`
(entry 29) overwrite the previously written carries `ca0` (entry 16),
`ca1` (entry 19) and `ca3` (entry 25) — with distinct values at the
concrete input — and `anew` (entry 17) is itself clobbered by the later
carry write `ca4` (entry 28).  `dnew` alone lands on a cell that is
written exactly once in the whole sequence: the diverted c-carry leaves
`ca2`'s position (= `dnew`'s) untouched. -/
theorem C10_amended :
    (CompressGate.ca0.cell = CompressGate.bnew.cell
      ∧ CompressGate.ca1.cell = CompressGate.cnew.cell
      ∧ CompressGate.ca2.cell = CompressGate.dnew.cell
      ∧ CompressGate.ca3.cell = CompressGate.enew.cell
      ∧ CompressGate.ca4.cell = CompressGate.anew.cell)
    ∧ ((compress_writes cw0 cw1 cw2).getD 22 (CompressGate.a, 0)).1
        = CompressGate.ca0
    ∧ (((compress_writes cw0 cw1 cw2).getD 16 (CompressGate.a, 0)).1.cell
        = ((compress_writes cw0 cw1 cw2).getD 20 (CompressGate.a, 0)).1.cell
      ∧ ((compress_writes cw0 cw1 cw2).getD 16 (CompressGate.a, 0)).2
        ≠ ((compress_writes cw0 cw1 cw2).getD 20 (CompressGate.a, 0)).2)
    ∧ (((compress_writes cw0 cw1 cw2).getD 19 (CompressGate.a, 0)).1.cell
        = ((compress_writes cw0 cw1 cw2).getD 23 (CompressGate.a, 0)).1.cell
      ∧ ((compress_writes cw0 cw1 cw2).getD 19 (CompressGate.a, 0)).2
        ≠ ((compress_writes cw0 cw1 cw2).getD 23 (CompressGate.a, 0)).2)
    ∧ (((compress_writes cw0 cw1 cw2).getD 25 (CompressGate.a, 0)).1.cell
        = ((compress_writes cw0 cw1 cw2).getD 29 (CompressGate.a, 0)).1.cell
      ∧ ((compress_writes cw0 cw1 cw2).getD 25 (CompressGate.a, 0)).2
        ≠ ((compress_writes cw0 cw1 cw2).getD 29 (CompressGate.a, 0)).2)
    ∧ (((compress_writes cw0 cw1 cw2).getD 17 (CompressGate.a, 0)).1.cell
        = ((compress_writes cw0 cw1 cw2).getD 28 (CompressGate.a, 0)).1.cell
      ∧ ((compress_writes cw0 cw1 cw2).getD 17 (CompressGate.a, 0)).1
        = CompressGate.anew
      ∧ ((compress_writes cw0 cw1 cw2).getD 28 (CompressGate.a, 0)).1
        = CompressGate.ca4
      ∧ ((compress_writes cw0 cw1 cw2).getD 17 (CompressGate.a, 0)).2
        ≠ ((compress_writes cw0 cw1 cw2).getD 28 (CompressGate.a, 0)).2)
    ∧ ((compress_writes cw0 cw1 cw2).countP
        (fun p => decide (p.1.cell = CompressGate.dnew.cell)) = 1) := by
  refine ⟨⟨rfl, rfl, rfl, rfl, rfl⟩, by decide, ⟨by decide, by decide⟩,
    ⟨by decide, by decide⟩, ⟨by decide, by decide⟩,
    ⟨by decide, by decide, by decide, by decide⟩, by decide⟩

/-- C8: the trace schedule.  `assign_content` runs the left line (5 rounds
of 16 steps with tables `O`, `R`, `ROUNDS_OFFSET`), then the right line
(tables `PO`, `PR`, `PROUNDS_OFFSET`), both starting from the same initial
quintuple, then one compression of the untouched initial quintuple with the
two line results; the compression row cursor is `800 = 160 * 5`, i.e.
exactly 160 round steps of 5 rows each precede it.  Each round step emits
its new state quintuple in the order `(e, a_next, b, c_next, d)`. -/
theorem C8_schedule (start_buf : Fin 5 → Nat) (inputs : Fin 16 → Nat) :
    (assign_content_trace start_buf inputs
      = (lineFold start_buf inputs O R ROUNDS_OFFSET false).bind (fun r1 =>
         (lineFold start_buf inputs PO PR PROUNDS_OFFSET true).bind (fun r2 =>
           some (assign_compress start_buf r1 r2, 800))))
    ∧ ∀ (prev : Fin 5 → Nat) (input : Nat) (round : Fin 5) (index : Fin 16)
        (sh : Fin 5 → Fin 16 → Nat) (off : Fin 5 → Nat) (pr : Bool)
        (st : Fin 5 → Nat),
        assign_next prev input round index sh off pr = some st →
        ∃ w, get_witnesses round prev input (sh round index) (off round) pr = some w
          ∧ st = ![prev 4, w.a_next, prev 1, w.c_next, prev 3] := by
  constructor
  · have h1 := nested_foldlM_offset (List.finRange 5) (List.finRange 16)
      (fun st round index => assign_next st (rotate_inputs inputs (O round) index)
        round index R ROUNDS_OFFSET false) 5 start_buf 0
    have h2 := nested_foldlM_offset (List.finRange 5) (List.finRange 16)
      (fun st round index => assign_next st (rotate_inputs inputs (PO round) index)
        round index PR PROUNDS_OFFSET true) 5 start_buf 400
    simp only [List.length_finRange] at h1 h2
    unfold assign_content_trace
    simp only [rotate_inputs] at h1 h2 ⊢
    rw [h1]
    unfold lineFold
    cases hf1 : (List.finRange 5).foldlM (fun st round =>
        (List.finRange 16).foldlM (fun st index =>
          assign_next st (inputs (O round index)) round index R ROUNDS_OFFSET false)
          st) start_buf with
    | none => simp [hf1]
    | some r1 =>
      simp only [hf1, Option.map_some', Option.bind_eq_bind, Option.some_bind]
      rw [show (0 + 5 * (16 * 5)) = 400 by norm_num] at *
      rw [h2]
      cases hf2 : (List.finRange 5).foldlM (fun st round =>
          (List.finRange 16).foldlM (fun st index =>
            assign_next st (inputs (PO round index)) round index PR PROUNDS_OFFSET true)
            st) start_buf with
      | none => simp [hf2]
      | some r2 =>
        simp only [hf2, Option.map_some', Option.bind_eq_bind, Option.some_bind]
        rfl
  · intro prev input round index sh off pr st h
    unfold assign_next at h
    cases hw : get_witnesses round prev input (sh round index) (off round) pr with
    | none => rw [hw] at h; simp at h
    | some w =>
      rw [hw] at h
      simp only [Option.map_some', Option.some.injEq] at h
      exact ⟨w, rfl, h.symm⟩

end RMD160
